import Mathlib

/-!
# netlify-dynamic-dns: the reconciliation pass of `main.go`

A shallow embedding of `doUpdate` and `main` from `src/main.go`.

* The four external operations (`GetIPv4`, `GetDNSRecords`, `DeleteDNSRecord`,
  `CreateDNSRecord`) are answers supplied by an environment `Env`; every provider
  call that the code issues is appended to a call trace, every `log.Println` to a
  log, so that "which calls were issued, in which order" is a statement about data.
* Go `error` values are a small tree: a leaf with a text, or `fmt.Errorf("...%w", e)`
  wrapping a cause behind a prefix.
* `os.Exit` inside `doUpdate` is an outcome of its own, distinct from returning.
* Go strings are modelled by Lean strings (sequences of characters); the only string
  operations of the program are comparison, concatenation and the replacement of the
  one-byte text `.` by the one-byte text `_`, which act alike on bytes and on characters.
* The payload of a successful list call is a slice of pointers to records: an entry is a
  record or `nil`. The scan reads `record.Hostname` without a nil check, so a `nil` entry
  that the scan reaches ends the run in a panic (`Outcome.panicked`).
* The timeout of `GetIPv4` is not modelled: a discovery that times out is a discovery that
  fails.
-/

namespace NetlifyDDNS

/-! ## Errors -/

/-- Go `error` values as the program builds them: an error produced by a collaborator,
or `fmt.Errorf(pre ++ "%w", cause)`. -/
inductive GoError where
  | leaf (msg : String)
  | wrap (pre : String) (cause : GoError)
  deriving DecidableEq, Repr

namespace GoError

/-- The method `Error()`: for a wrapped error, the prefix followed by the cause's text. -/
def Error : GoError → String
  | leaf msg => msg
  | wrap pre cause => pre ++ Error cause

/-- The function `errors.Unwrap`: the cause of a `%w` error, nothing for any other error. -/
def Unwrap : GoError → Option GoError
  | leaf _ => none
  | wrap _ cause => some cause

end GoError

/-! ## Data model -/

/-- Modelled from the spec: the type declaration `models.DNSRecord` of the generated API
bindings is not part of the sources; the fields the program reads are kept (`Type_` is the
field `Type`), and `TTL` is "non-negative integer seconds; may be absent". -/
structure DNSRecord where
  ID : String
  DNSZoneID : String
  Hostname : String
  Type_ : String
  Value : String
  TTL : Option Nat
  deriving DecidableEq, Repr

/-- Modelled from the spec: the type declaration `models.DNSRecordCreate` of the generated
API bindings is not part of the sources; the fields the program writes are kept, and `TTL`
is optional. -/
structure DNSRecordCreate where
  Hostname : String
  Type_ : String
  Value : String
  TTL : Option Nat
  deriving DecidableEq, Repr

/-- The global `cfg` of `main.go`. -/
structure Cfg where
  AccessToken : String
  Zone : String
  Record : String
  zoneID : String
  recordHostname : String
  deriving DecidableEq, Repr

/-- A provider call as issued by `doUpdate`, with its arguments. -/
inductive Call where
  | list (zoneID : String)
  | delete (zoneID : String) (recordID : String)
  | create (zoneID : String) (record : DNSRecordCreate)
  deriving DecidableEq, Repr

namespace Call

/-- Is this call a `DeleteDNSRecord`? -/
def isDelete : Call → Bool
  | delete _ _ => true
  | _ => false

/-- Is this call a `CreateDNSRecord`? -/
def isCreate : Call → Bool
  | create _ _ => true
  | _ => false

/-- Is this call a `GetDNSRecords`? -/
def isList : Call → Bool
  | list _ => true
  | _ => false

end Call

/-- The answers of the outside world during one run. Every operation is called at most once
per run, so an answer per argument tuple loses no generality. -/
structure Env where
  GetIPv4 : Except GoError String
  GetDNSRecords : String → Except GoError (List (Option DNSRecord))
  DeleteDNSRecord : String → String → Option GoError
  CreateDNSRecord : String → DNSRecordCreate → Option GoError

/-- How a call of `doUpdate` ends: it returns (`nil` or an error), it terminates the
process through `os.Exit`, or it panics on a nil pointer dereference. -/
inductive Outcome where
  | returned (err : Option GoError)
  | exited (code : Nat)
  | panicked
  deriving DecidableEq, Repr

/-- How the scan of lines 84-92 ends: it reads a field of a `nil` entry (a panic), or it
comes to its end with `existingARecord` set (after the `break`) or still `nil`. -/
inductive Scan where
  | nilDereference
  | done (existingARecord : Option DNSRecord)
  deriving DecidableEq, Repr

/-- What one call of `doUpdate` did: provider calls in order, log lines in order, outcome. -/
structure Run where
  trace : List Call
  logs : List String
  outcome : Outcome
  deriving DecidableEq, Repr

/-! ## `doUpdate` -/

/-- The scan of lines 84-92: the first record, in list order, whose `Hostname` is the record
hostname and whose `Type` is `"A"`. The entries are pointers: reading `record.Hostname` of a
`nil` entry (line 86) panics. -/
def findExistingARecord (recordHostname : String) : List (Option DNSRecord) → Scan
  | [] => .done none
  | none :: _ => .nilDereference
  | some record :: rest =>
    if record.Hostname = recordHostname then
      if record.Type_ = "A" then .done (some record)
      else findExistingARecord recordHostname rest
    else findExistingARecord recordHostname rest

/-- Lines 117-140: build the payload, copy the TTL of the existing record when there is one,
log, call create. `trace` and `logs` are what the run has produced so far. -/
def createNewRecord (cfg : Cfg) (env : Env) (ipv4 : String) (existingARecord : Option DNSRecord)
    (trace : List Call) (logs : List String) : Run :=
  let ipv4Record : DNSRecordCreate :=
    { Hostname := cfg.recordHostname, Type_ := "A", Value := ipv4, TTL := none }
  let ipv4Record : DNSRecordCreate :=
    match existingARecord with
    | some existing => { ipv4Record with TTL := existing.TTL }
    | none => ipv4Record
  let logs := logs ++ ["add DNS record " ++ cfg.recordHostname ++ ", ip " ++ ipv4]
  let trace := trace ++ [Call.create cfg.zoneID ipv4Record]
  match env.CreateDNSRecord cfg.zoneID ipv4Record with
  | some err =>
    { trace := trace, logs := logs,
      outcome := .returned (some (.wrap "error creating new DNS record on Netlify DNS: " err)) }
  | none => { trace := trace, logs := logs, outcome := .returned none }

/-- The function `doUpdate` of `main.go` (lines 69-141). -/
def doUpdate (cfg : Cfg) (env : Env) : Run :=
  match env.GetIPv4 with
  | .error err =>
    { trace := [], logs := [],
      outcome := .returned (some (.wrap "error retrieving your public ipv4 address: " err)) }
  | .ok ipv4 =>
    match env.GetDNSRecords cfg.zoneID with
    | .error err =>
      { trace := [Call.list cfg.zoneID], logs := [], outcome := .returned (some err) }
    | .ok payload =>
      match findExistingARecord cfg.recordHostname payload with
      | .nilDereference =>
        { trace := [Call.list cfg.zoneID], logs := [], outcome := .panicked }
      | .done (some existing) =>
        if existing.Hostname = cfg.recordHostname ∧ existing.Value = ipv4 then
          { trace := [Call.list cfg.zoneID], logs := [], outcome := .exited 0 }
        else
          let logs :=
            ["removing DNS record " ++ existing.Hostname ++ ", ip " ++ existing.Value]
          let trace := [Call.list cfg.zoneID, Call.delete existing.DNSZoneID existing.ID]
          match env.DeleteDNSRecord existing.DNSZoneID existing.ID with
          | some err =>
            { trace := trace, logs := logs,
              outcome := .returned
                (some (.wrap "error deleting existing record from Netlify DNS: " err)) }
          | none => createNewRecord cfg env ipv4 (some existing) trace logs
      | .done none => createNewRecord cfg env ipv4 none [Call.list cfg.zoneID] []

/-! ## `main` -/

/-- The library function `strings.ReplaceAll` for a non-empty `old`: scanning left to right,
every non-overlapping occurrence of `old` is replaced by `new`. `skip` counts the characters
of an occurrence just replaced that are still to be passed over. -/
def replaceAllFrom (old new : List Char) : Nat → List Char → List Char
  | _, [] => []
  | skip + 1, _ :: cs => replaceAllFrom old new skip cs
  | 0, c :: cs =>
    if old.isPrefixOf (c :: cs) then new ++ replaceAllFrom old new (old.length - 1) cs
    else c :: replaceAllFrom old new 0 cs

/-- The library function `strings.ReplaceAll(s, old, new)`. With an empty `old`, `new` is
inserted before every character and at the end, unless `new` is empty too. -/
def stringsReplaceAll (s old new : String) : String :=
  if old = new then s
  else if old.data = [] then
    String.mk (new.data ++ s.data.flatMap (fun c => c :: new.data))
  else String.mk (replaceAllFrom old.data new.data 0 s.data)

/-- Lines 152-153 of `main`: the two derived fields of `cfg`. -/
def deriveFields (cfg : Cfg) : Cfg :=
  { cfg with
    zoneID := stringsReplaceAll cfg.Zone "." "_",
    recordHostname := cfg.Record ++ "." ++ cfg.Zone }

/-- What one invocation of the program did, and the exit code of the process. -/
structure Process where
  stdout : List String
  logs : List String
  trace : List Call
  exitCode : Nat
  deriving DecidableEq, Repr

/-- The function `main` of `main.go` (lines 143-163). `parsed` is the answer of
`goconfig.Parse(cfg)`: an error, or `cfg` with the three configured fields filled.
Returning from `main` ends the process with exit code 0; a panic that nothing recovers
ends it with exit code 2. -/
def main (parsed : Except GoError Cfg) (env : Env) : Process :=
  match parsed with
  | .error err => { stdout := [err.Error], logs := [], trace := [], exitCode := 0 }
  | .ok cfg =>
    let run := doUpdate (deriveFields cfg) env
    match run.outcome with
    | .exited code => { stdout := [], logs := run.logs, trace := run.trace, exitCode := code }
    | .returned (some err) =>
      { stdout := [], logs := run.logs ++ ["error Updating DNS Record " ++ err.Error],
        trace := run.trace, exitCode := 1 }
    | .returned none => { stdout := [], logs := run.logs, trace := run.trace, exitCode := 0 }
    | .panicked => { stdout := [], logs := run.logs, trace := run.trace, exitCode := 2 }

/-! ## Concrete environments (the end-to-end scenarios) -/

/-- The configuration of the scenarios, before derivation. -/
def cfgExample : Cfg :=
  { AccessToken := "t", Zone := "example.com", Record := "home", zoneID := "",
    recordHostname := "" }

/-- The record `r1` of scenarios 2 and 3. -/
def recR1 : DNSRecord :=
  { ID := "r1", DNSZoneID := "example_com", Hostname := "home.example.com", Type_ := "A",
    Value := "203.0.113.5", TTL := some 3600 }

/-- An environment in which discovery yields `ip`, the list call yields `recs`, and delete
and create succeed. -/
def envOk (ip : String) (recs : List (Option DNSRecord)) : Env :=
  { GetIPv4 := .ok ip, GetDNSRecords := fun _ => .ok recs,
    DeleteDNSRecord := fun _ _ => none, CreateDNSRecord := fun _ _ => none }

/-- An environment like `envOk` in which the delete call fails with `e`. -/
def envDeleteFails (ip : String) (recs : List (Option DNSRecord)) (e : GoError) : Env :=
  { envOk ip recs with DeleteDNSRecord := fun _ _ => some e }

/-- An environment like `envOk` in which the create call fails with `e`. -/
def envCreateFails (ip : String) (recs : List (Option DNSRecord)) (e : GoError) : Env :=
  { envOk ip recs with CreateDNSRecord := fun _ _ => some e }

/-- An environment in which IP discovery fails with `e`. -/
def envIPFails (e : GoError) : Env :=
  { envOk "" [] with GetIPv4 := .error e }

/-- An environment in which the list call fails with `e`. -/
def envListFails (ip : String) (e : GoError) : Env :=
  { envOk ip [] with GetDNSRecords := fun _ => .error e }

/-- The derived configuration of the scenarios: zone `example_com`, hostname
`home.example.com`. -/
def cfgHome : Cfg := deriveFields cfgExample

/-- The record list of the counterexample to C1: two A records at the record hostname, the
second of which already holds the discovered address. -/
def recsTwoARecords : List (Option DNSRecord) :=
  [some { recR1 with ID := "r0", Value := "192.0.2.1" }, some recR1]

/-- The record of the counterexample to C3: the provider reports the record under a zone
identifier of its own, not under the derived one. -/
def recForeignZone : DNSRecord :=
  { recR1 with DNSZoneID := "5f0c2a" }

/-- A record like `r1` that carries no TTL. -/
def recNoTTL : DNSRecord :=
  { recR1 with TTL := none }

/-- The records of scenario 4: an AAAA record at the record hostname and an A record at
another hostname. -/
def recsUnrelated : List (Option DNSRecord) :=
  [some { recR1 with ID := "r2", Type_ := "AAAA", Value := "2001:db8::1" },
   some { recR1 with ID := "r3", Hostname := "www.example.com" }]

/-- A record like `r1` whose TTL is zero. -/
def recZeroTTL : DNSRecord :=
  { recR1 with TTL := some 0 }

/-- A record list in which the stale A record `r1` at the record hostname comes after the
unrelated records of scenario 4 and before a second A record at the record hostname. -/
def recsMixed : List (Option DNSRecord) :=
  recsUnrelated ++ [some recR1, some { recR1 with ID := "r4", Value := "192.0.2.1" }]

/-- A payload whose first entry is `nil`, before the A record `r1` at the record hostname. -/
def recsNilFirst : List (Option DNSRecord) :=
  [none, some recR1]

/-! ## Specification vocabulary -/

/-- The record `r` is the first one of `recs`, in list order, that is an A record at
`host`. -/
def IsFirstARecord (host : String) (recs : List (Option DNSRecord)) (r : DNSRecord) : Prop :=
  ∃ pre post, recs = pre ++ some r :: post ∧ r.Hostname = host ∧ r.Type_ = "A" ∧
    ∀ x, some x ∈ pre → ¬(x.Hostname = host ∧ x.Type_ = "A")

/-- The scan of `recs` meets a `nil` entry: the list holds a `nil` entry that no A record at
`host` precedes. -/
def ScanMeetsNil (host : String) (recs : List (Option DNSRecord)) : Prop :=
  ∃ pre post, recs = pre ++ none :: post ∧
    ∀ x, some x ∈ pre → ¬(x.Hostname = host ∧ x.Type_ = "A")

/-- The words of the specification for the zone identifier: every `.` becomes `_`. -/
def dotsToUnderscores (z : String) : String :=
  String.mk (z.data.map fun c => if c = '.' then '_' else c)

/-- Every run of `doUpdate` follows one of seven paths. -/
inductive Path (cfg : Cfg) (env : Env) : Prop where
  | ipError (e : GoError) (hip : env.GetIPv4 = .error e)
  | listError (ip : String) (e : GoError) (hip : env.GetIPv4 = .ok ip)
      (hl : env.GetDNSRecords cfg.zoneID = .error e)
  | nilEntry (ip : String) (recs : List (Option DNSRecord))
      (hip : env.GetIPv4 = .ok ip) (hl : env.GetDNSRecords cfg.zoneID = .ok recs)
      (hf : findExistingARecord cfg.recordHostname recs = .nilDereference)
  | noChange (ip : String) (recs : List (Option DNSRecord)) (r : DNSRecord)
      (hip : env.GetIPv4 = .ok ip) (hl : env.GetDNSRecords cfg.zoneID = .ok recs)
      (hf : findExistingARecord cfg.recordHostname recs = .done (some r)) (hv : r.Value = ip)
  | deleteError (ip : String) (recs : List (Option DNSRecord)) (r : DNSRecord) (e : GoError)
      (hip : env.GetIPv4 = .ok ip) (hl : env.GetDNSRecords cfg.zoneID = .ok recs)
      (hf : findExistingARecord cfg.recordHostname recs = .done (some r)) (hv : r.Value ≠ ip)
      (hd : env.DeleteDNSRecord r.DNSZoneID r.ID = some e)
  | replace (ip : String) (recs : List (Option DNSRecord)) (r : DNSRecord)
      (hip : env.GetIPv4 = .ok ip) (hl : env.GetDNSRecords cfg.zoneID = .ok recs)
      (hf : findExistingARecord cfg.recordHostname recs = .done (some r)) (hv : r.Value ≠ ip)
      (hd : env.DeleteDNSRecord r.DNSZoneID r.ID = none)
  | fresh (ip : String) (recs : List (Option DNSRecord))
      (hip : env.GetIPv4 = .ok ip) (hl : env.GetDNSRecords cfg.zoneID = .ok recs)
      (hf : findExistingARecord cfg.recordHostname recs = .done none)

/-! ## Lemmas on the scan -/

theorem findExistingARecord_cons_some (host : String) (a : DNSRecord)
    (rest : List (Option DNSRecord)) :
    findExistingARecord host (some a :: rest) =
      if a.Hostname = host ∧ a.Type_ = "A" then .done (some a)
      else findExistingARecord host rest := by
  show (if a.Hostname = host then
      (if a.Type_ = "A" then Scan.done (some a) else findExistingARecord host rest)
    else findExistingARecord host rest) = _
  by_cases h1 : a.Hostname = host
  · by_cases h2 : a.Type_ = "A"
    · simp [h1, h2]
    · simp [h1, h2]
  · simp [h1]

/-- The scan ends without a selected record exactly when every entry is a record that is
not an A record at the hostname. -/
theorem findExistingARecord_done_none_iff (host : String) (recs : List (Option DNSRecord)) :
    findExistingARecord host recs = .done none ↔
      ∀ x ∈ recs, ∃ y, x = some y ∧ ¬(y.Hostname = host ∧ y.Type_ = "A") := by
  induction recs with
  | nil => simp [findExistingARecord]
  | cons a rest ih =>
    cases a with
    | none => simp [findExistingARecord]
    | some a =>
      rw [findExistingARecord_cons_some]
      by_cases hm : a.Hostname = host ∧ a.Type_ = "A"
      · rw [if_pos hm]
        constructor
        · intro h; cases h
        · intro h
          obtain ⟨y, hy, hny⟩ := h (some a) (List.mem_cons_self _ _)
          cases hy
          exact absurd hm hny
      · rw [if_neg hm, ih]
        constructor
        · intro h x hx
          rcases List.mem_cons.mp hx with rfl | hx
          · exact ⟨a, rfl, hm⟩
          · exact h x hx
        · intro h x hx
          exact h x (List.mem_cons_of_mem _ hx)

/-- The scan panics exactly when the list holds a `nil` entry that no A record at the
hostname precedes. -/
theorem findExistingARecord_nilDereference_iff (host : String)
    (recs : List (Option DNSRecord)) :
    findExistingARecord host recs = .nilDereference ↔ ScanMeetsNil host recs := by
  induction recs with
  | nil =>
    constructor
    · intro h; cases h
    · rintro ⟨pre, post, hl, -⟩
      cases pre <;> cases hl
  | cons a rest ih =>
    cases a with
    | none =>
      constructor
      · intro _
        exact ⟨[], rest, rfl, by simp⟩
      · intro _
        rfl
    | some a =>
      rw [findExistingARecord_cons_some]
      by_cases hm : a.Hostname = host ∧ a.Type_ = "A"
      · rw [if_pos hm]
        constructor
        · intro h; cases h
        · rintro ⟨pre, post, hl, hpre⟩
          cases pre with
          | nil => cases hl
          | cons b pre =>
            simp only [List.cons_append, List.cons.injEq] at hl
            exact absurd hm (hpre a (by simp [← hl.1]))
      · rw [if_neg hm, ih]
        constructor
        · rintro ⟨pre, post, hl, hpre⟩
          refine ⟨some a :: pre, post, by simp [hl], ?_⟩
          intro x hx
          rcases List.mem_cons.mp hx with h | hx
          · cases h
            exact hm
          · exact hpre x hx
        · rintro ⟨pre, post, hl, hpre⟩
          cases pre with
          | nil => cases hl
          | cons b pre =>
            simp only [List.cons_append, List.cons.injEq] at hl
            exact ⟨pre, post, hl.2, fun x hx => hpre x (List.mem_cons_of_mem _ hx)⟩

/-- A record that the scan selects is the first A record at the hostname. -/
theorem findExistingARecord_done_some (host : String) (recs : List (Option DNSRecord))
    (r : DNSRecord) (h : findExistingARecord host recs = .done (some r)) :
    IsFirstARecord host recs r := by
  induction recs with
  | nil => cases h
  | cons a rest ih =>
    cases a with
    | none => cases h
    | some a =>
      rw [findExistingARecord_cons_some] at h
      by_cases hm : a.Hostname = host ∧ a.Type_ = "A"
      · rw [if_pos hm] at h
        cases h
        exact ⟨[], rest, rfl, hm.1, hm.2, by simp⟩
      · rw [if_neg hm] at h
        obtain ⟨pre, post, hl, hh, ht, hpre⟩ := ih h
        refine ⟨some a :: pre, post, by simp [hl], hh, ht, ?_⟩
        intro x hx
        rcases List.mem_cons.mp hx with h2 | hx
        · cases h2
          exact hm
        · exact hpre x hx

/-- When the list has a first A record at the hostname, the scan selects it, unless it
panics on a `nil` entry before it. -/
theorem findExistingARecord_of_first (host : String) (recs : List (Option DNSRecord))
    (r : DNSRecord) (h : IsFirstARecord host recs r) :
    findExistingARecord host recs = .done (some r) ∨
      findExistingARecord host recs = .nilDereference := by
  induction recs with
  | nil =>
    obtain ⟨pre, post, hl, -⟩ := h
    cases pre <;> cases hl
  | cons a rest ih =>
    cases a with
    | none => exact Or.inr rfl
    | some a =>
      obtain ⟨pre, post, hl, hh, ht, hpre⟩ := h
      rw [findExistingARecord_cons_some]
      cases pre with
      | nil =>
        simp only [List.nil_append, List.cons.injEq, Option.some.injEq] at hl
        obtain ⟨rfl, -⟩ := hl
        rw [if_pos ⟨hh, ht⟩]
        exact Or.inl rfl
      | cons b pre =>
        simp only [List.cons_append, List.cons.injEq] at hl
        have hm : ¬(a.Hostname = host ∧ a.Type_ = "A") := hpre a (by simp [← hl.1])
        rw [if_neg hm]
        exact ih ⟨pre, post, hl.2, hh, ht, fun x hx => hpre x (List.mem_cons_of_mem _ hx)⟩

theorem findExistingARecord_hostname {host : String} {recs : List (Option DNSRecord)}
    {r : DNSRecord} (h : findExistingARecord host recs = .done (some r)) :
    r.Hostname = host := by
  obtain ⟨_, _, _, hh, _, _⟩ := findExistingARecord_done_some host recs r h
  exact hh

/-- The first A record at the hostname is unique when the scan selects a record. -/
theorem first_eq_of_done_some {host : String} {recs : List (Option DNSRecord)}
    {r r2 : DNSRecord} (h : findExistingARecord host recs = .done (some r))
    (h2 : IsFirstARecord host recs r2) : r2 = r := by
  rcases findExistingARecord_of_first host recs r2 h2 with h3 | h3
  · rw [h] at h3
    cases h3
    rfl
  · rw [h] at h3
    cases h3

/-! ## The paths of `doUpdate` -/

/-- The payload that `doUpdate` sends to create. -/
theorem createNewRecord_trace (cfg : Cfg) (env : Env) (ipv4 : String)
    (existing : Option DNSRecord) (trace : List Call) (logs : List String) :
    (createNewRecord cfg env ipv4 existing trace logs).trace =
      trace ++ [Call.create cfg.zoneID
        { Hostname := cfg.recordHostname, Type_ := "A", Value := ipv4,
          TTL := existing.bind DNSRecord.TTL }] := by
  unfold createNewRecord
  cases existing <;> simp only [Option.bind] <;> split <;> rfl

theorem createNewRecord_logs (cfg : Cfg) (env : Env) (ipv4 : String)
    (existing : Option DNSRecord) (trace : List Call) (logs : List String) :
    (createNewRecord cfg env ipv4 existing trace logs).logs =
      logs ++ ["add DNS record " ++ cfg.recordHostname ++ ", ip " ++ ipv4] := by
  unfold createNewRecord
  cases existing <;> simp only [] <;> split <;> rfl

theorem createNewRecord_outcome (cfg : Cfg) (env : Env) (ipv4 : String)
    (existing : Option DNSRecord) (trace : List Call) (logs : List String) :
    (createNewRecord cfg env ipv4 existing trace logs).outcome =
      match env.CreateDNSRecord cfg.zoneID
          { Hostname := cfg.recordHostname, Type_ := "A", Value := ipv4,
            TTL := existing.bind DNSRecord.TTL } with
      | some err =>
        .returned (some (.wrap "error creating new DNS record on Netlify DNS: " err))
      | none => .returned none := by
  unfold createNewRecord
  cases existing <;> simp only [Option.bind] <;> split <;> simp_all

theorem doUpdate_ip_error {cfg : Cfg} {env : Env} {e : GoError}
    (hip : env.GetIPv4 = .error e) :
    doUpdate cfg env =
      { trace := [], logs := [],
        outcome := .returned
          (some (.wrap "error retrieving your public ipv4 address: " e)) } := by
  unfold doUpdate; rw [hip]

theorem doUpdate_list_error {cfg : Cfg} {env : Env} {ip : String} {e : GoError}
    (hip : env.GetIPv4 = .ok ip) (hl : env.GetDNSRecords cfg.zoneID = .error e) :
    doUpdate cfg env =
      { trace := [Call.list cfg.zoneID], logs := [], outcome := .returned (some e) } := by
  unfold doUpdate; rw [hip]; simp only []; rw [hl]

theorem doUpdate_nil_entry {cfg : Cfg} {env : Env} {ip : String}
    {recs : List (Option DNSRecord)} (hip : env.GetIPv4 = .ok ip)
    (hl : env.GetDNSRecords cfg.zoneID = .ok recs)
    (hf : findExistingARecord cfg.recordHostname recs = .nilDereference) :
    doUpdate cfg env =
      { trace := [Call.list cfg.zoneID], logs := [], outcome := .panicked } := by
  unfold doUpdate; rw [hip]; simp only []; rw [hl]; simp only []; rw [hf]

theorem doUpdate_no_change {cfg : Cfg} {env : Env} {ip : String}
    {recs : List (Option DNSRecord)} {r : DNSRecord} (hip : env.GetIPv4 = .ok ip)
    (hl : env.GetDNSRecords cfg.zoneID = .ok recs)
    (hf : findExistingARecord cfg.recordHostname recs = .done (some r)) (hv : r.Value = ip) :
    doUpdate cfg env =
      { trace := [Call.list cfg.zoneID], logs := [], outcome := .exited 0 } := by
  have hh := findExistingARecord_hostname hf
  unfold doUpdate; rw [hip]; simp only []; rw [hl]; simp only []; rw [hf]
  simp [hh, hv]

theorem doUpdate_delete_error {cfg : Cfg} {env : Env} {ip : String}
    {recs : List (Option DNSRecord)} {r : DNSRecord} {e : GoError}
    (hip : env.GetIPv4 = .ok ip) (hl : env.GetDNSRecords cfg.zoneID = .ok recs)
    (hf : findExistingARecord cfg.recordHostname recs = .done (some r)) (hv : r.Value ≠ ip)
    (hd : env.DeleteDNSRecord r.DNSZoneID r.ID = some e) :
    doUpdate cfg env =
      { trace := [Call.list cfg.zoneID, Call.delete r.DNSZoneID r.ID],
        logs := ["removing DNS record " ++ r.Hostname ++ ", ip " ++ r.Value],
        outcome := .returned
          (some (.wrap "error deleting existing record from Netlify DNS: " e)) } := by
  unfold doUpdate; rw [hip]; simp only []; rw [hl]; simp only []; rw [hf]
  simp [hv, hd]

theorem doUpdate_replace {cfg : Cfg} {env : Env} {ip : String}
    {recs : List (Option DNSRecord)} {r : DNSRecord} (hip : env.GetIPv4 = .ok ip)
    (hl : env.GetDNSRecords cfg.zoneID = .ok recs)
    (hf : findExistingARecord cfg.recordHostname recs = .done (some r)) (hv : r.Value ≠ ip)
    (hd : env.DeleteDNSRecord r.DNSZoneID r.ID = none) :
    doUpdate cfg env =
      createNewRecord cfg env ip (some r)
        [Call.list cfg.zoneID, Call.delete r.DNSZoneID r.ID]
        ["removing DNS record " ++ r.Hostname ++ ", ip " ++ r.Value] := by
  unfold doUpdate; rw [hip]; simp only []; rw [hl]; simp only []; rw [hf]
  simp [hv, hd]

theorem doUpdate_fresh {cfg : Cfg} {env : Env} {ip : String}
    {recs : List (Option DNSRecord)}
    (hip : env.GetIPv4 = .ok ip) (hl : env.GetDNSRecords cfg.zoneID = .ok recs)
    (hf : findExistingARecord cfg.recordHostname recs = .done none) :
    doUpdate cfg env = createNewRecord cfg env ip none [Call.list cfg.zoneID] [] := by
  unfold doUpdate; rw [hip]; simp only []; rw [hl]; simp only []; rw [hf]

theorem path_exists (cfg : Cfg) (env : Env) : Path cfg env := by
  cases hip : env.GetIPv4 with
  | error e => exact .ipError e hip
  | ok ip =>
    cases hl : env.GetDNSRecords cfg.zoneID with
    | error e => exact .listError ip e hip hl
    | ok recs =>
      cases hf : findExistingARecord cfg.recordHostname recs with
      | nilDereference => exact .nilEntry ip recs hip hl hf
      | done existing =>
        cases existing with
        | none => exact .fresh ip recs hip hl hf
        | some r =>
          by_cases hv : r.Value = ip
          · exact .noChange ip recs r hip hl hf hv
          · cases hd : env.DeleteDNSRecord r.DNSZoneID r.ID with
            | none => exact .replace ip recs r hip hl hf hv hd
            | some e => exact .deleteError ip recs r e hip hl hf hv hd

/-! ## C1: no change when the record is already right -/

/-- C1, as stated, fails: the list contains an A record at the record hostname whose value
is the discovered address (the second one), and yet `doUpdate` deletes the first A record
and creates a new one. -/
theorem doUpdate_later_match_still_updates :
    (envOk "203.0.113.5" recsTwoARecords).GetIPv4 = .ok "203.0.113.5" ∧
    (envOk "203.0.113.5" recsTwoARecords).GetDNSRecords cfgHome.zoneID = .ok recsTwoARecords ∧
    (∃ r, some r ∈ recsTwoARecords ∧
      r.Type_ = "A" ∧ r.Hostname = cfgHome.recordHostname ∧ r.Value = "203.0.113.5") ∧
    (doUpdate cfgHome (envOk "203.0.113.5" recsTwoARecords)).trace =
      [Call.list "example_com", Call.delete "example_com" "r0",
       Call.create "example_com"
        { Hostname := "home.example.com", Type_ := "A", Value := "203.0.113.5",
          TTL := some 3600 }] := by
  refine ⟨rfl, rfl, ⟨recR1, ?_, ?_⟩, ?_⟩
  · simp [recsTwoARecords]
  · decide
  · decide

/-- C1, amended: when IP discovery and the list call succeed and the first A record at the
record hostname, in list order, has the discovered IPv4 as its value, the run issues no
delete call and no create call (its only call is the list call). -/
theorem doUpdate_first_match_no_delete_no_create (cfg : Cfg) (env : Env) (ip : String)
    (recs : List (Option DNSRecord)) (r : DNSRecord)
    (hip : env.GetIPv4 = .ok ip) (hl : env.GetDNSRecords cfg.zoneID = .ok recs)
    (hfirst : IsFirstARecord cfg.recordHostname recs r) (hv : r.Value = ip) :
    (doUpdate cfg env).trace = [Call.list cfg.zoneID] ∧
    ∀ c ∈ (doUpdate cfg env).trace, c.isDelete = false ∧ c.isCreate = false := by
  rcases findExistingARecord_of_first cfg.recordHostname recs r hfirst with hf | hf
  · rw [doUpdate_no_change hip hl hf hv]
    simp [Call.isDelete, Call.isCreate]
  · rw [doUpdate_nil_entry hip hl hf]
    simp [Call.isDelete, Call.isCreate]

theorem doUpdate_first_match_no_delete_no_create_witness :
    IsFirstARecord cfgHome.recordHostname [some recR1] recR1 ∧
    (doUpdate cfgHome (envOk "203.0.113.5" [some recR1])).trace = [Call.list cfgHome.zoneID] ∧
    ∀ c ∈ (doUpdate cfgHome (envOk "203.0.113.5" [some recR1])).trace,
      c.isDelete = false ∧ c.isCreate = false :=
  have hfirst : IsFirstARecord cfgHome.recordHostname [some recR1] recR1 :=
    ⟨[], [], rfl, by decide, by decide, by simp⟩
  ⟨hfirst, doUpdate_first_match_no_delete_no_create cfgHome (envOk "203.0.113.5" [some recR1])
    "203.0.113.5" [some recR1] recR1 rfl rfl hfirst (by decide)⟩

/-! ## C2: a successful run issues exactly one create call -/

/-- C2: when `doUpdate` returns `nil`, IP discovery has succeeded with some address `ip`
and the create calls of the run are exactly one call, on the derived zone identifier, whose
payload has type `A`, the record hostname and the value `ip`. -/
theorem doUpdate_success_exactly_one_create (cfg : Cfg) (env : Env)
    (hok : (doUpdate cfg env).outcome = .returned none) :
    ∃ ip ttl, env.GetIPv4 = .ok ip ∧
      (doUpdate cfg env).trace.filter Call.isCreate =
        [Call.create cfg.zoneID
          { Hostname := cfg.recordHostname, Type_ := "A", Value := ip, TTL := ttl }] := by
  cases path_exists cfg env with
  | ipError e hip => rw [doUpdate_ip_error hip] at hok; simp at hok
  | listError ip e hip hl => rw [doUpdate_list_error hip hl] at hok; simp at hok
  | nilEntry ip recs hip hl hf => rw [doUpdate_nil_entry hip hl hf] at hok; simp at hok
  | noChange ip recs r hip hl hf hv => rw [doUpdate_no_change hip hl hf hv] at hok; simp at hok
  | deleteError ip recs r e hip hl hf hv hd =>
    rw [doUpdate_delete_error hip hl hf hv hd] at hok; simp at hok
  | replace ip recs r hip hl hf hv hd =>
    refine ⟨ip, r.TTL, hip, ?_⟩
    rw [doUpdate_replace hip hl hf hv hd, createNewRecord_trace]
    simp [List.filter, Call.isCreate]
  | fresh ip recs hip hl hf =>
    refine ⟨ip, none, hip, ?_⟩
    rw [doUpdate_fresh hip hl hf, createNewRecord_trace]
    simp [List.filter, Call.isCreate]

theorem doUpdate_success_exactly_one_create_witness :
    (doUpdate cfgHome (envOk "198.51.100.9" [some recR1])).outcome = .returned none ∧
    ∃ ip ttl, (envOk "198.51.100.9" [some recR1]).GetIPv4 = .ok ip ∧
      (doUpdate cfgHome (envOk "198.51.100.9" [some recR1])).trace.filter Call.isCreate =
        [Call.create cfgHome.zoneID
          { Hostname := cfgHome.recordHostname, Type_ := "A", Value := ip, TTL := ttl }] :=
  ⟨by decide,
    doUpdate_success_exactly_one_create cfgHome (envOk "198.51.100.9" [some recR1]) (by decide)⟩

/-! ## C3: delete before create -/

/-- C3, as stated, fails on the zone identifiers: the delete call carries the zone
identifier stored in the selected record, the create call the derived one, and the provider
may report the record under another identifier than the derived one. -/
theorem doUpdate_delete_zone_differs_from_create_zone :
    (doUpdate cfgHome (envOk "198.51.100.9" [some recForeignZone])).trace =
      [Call.list "example_com", Call.delete "5f0c2a" "r1",
       Call.create "example_com"
        { Hostname := "home.example.com", Type_ := "A", Value := "198.51.100.9",
          TTL := some 3600 }] ∧
    "5f0c2a" ≠ "example_com" := by
  constructor <;> decide

/-- C3, amended: if a delete call is issued (at position `i` of the call sequence) and a
create call is issued (at position `j`), then the delete call comes strictly first; the
create call carries the derived zone identifier `cfg.zoneID`, the delete call carries the
`DNSZoneID` of the selected record (the first A record at the record hostname), so the two
zone identifiers are equal whenever that record's `DNSZoneID` equals `cfg.zoneID`. -/
theorem doUpdate_delete_before_create (cfg : Cfg) (env : Env) (i j : Nat)
    (zd id zc : String) (p : DNSRecordCreate)
    (hd : (doUpdate cfg env).trace[i]? = some (Call.delete zd id))
    (hc : (doUpdate cfg env).trace[j]? = some (Call.create zc p)) :
    i < j ∧ zc = cfg.zoneID ∧
    ∃ ip recs r, env.GetIPv4 = .ok ip ∧ env.GetDNSRecords cfg.zoneID = .ok recs ∧
      IsFirstARecord cfg.recordHostname recs r ∧ zd = r.DNSZoneID ∧ id = r.ID ∧
      (r.DNSZoneID = cfg.zoneID → zd = zc) := by
  cases path_exists cfg env with
  | ipError e hip => rw [doUpdate_ip_error hip] at hd; simp at hd
  | listError ip e hip hl =>
    rw [doUpdate_list_error hip hl] at hd
    rcases i with _ | i <;> simp at hd
  | nilEntry ip recs hip hl hf =>
    rw [doUpdate_nil_entry hip hl hf] at hd
    rcases i with _ | i <;> simp at hd
  | noChange ip recs r hip hl hf hv =>
    rw [doUpdate_no_change hip hl hf hv] at hd
    rcases i with _ | i <;> simp at hd
  | deleteError ip recs r e hip hl hf hv hdel =>
    rw [doUpdate_delete_error hip hl hf hv hdel] at hc
    rcases j with _ | _ | j <;> simp at hc
  | replace ip recs r hip hl hf hv hdel =>
    rw [doUpdate_replace hip hl hf hv hdel, createNewRecord_trace] at hd hc
    have hfirst := findExistingARecord_done_some cfg.recordHostname recs r hf
    rcases i with _ | _ | _ | i <;> simp at hd
    rcases j with _ | _ | _ | j <;> simp at hc
    obtain ⟨rfl, rfl⟩ := hd
    obtain ⟨rfl, -⟩ := hc
    exact ⟨by omega, rfl, ip, recs, r, hip, hl, hfirst, rfl, rfl, fun h => h⟩
  | fresh ip recs hip hl hf =>
    rw [doUpdate_fresh hip hl hf, createNewRecord_trace] at hd
    rcases i with _ | _ | i <;> simp at hd

theorem doUpdate_delete_before_create_witness :
    (doUpdate cfgHome (envOk "198.51.100.9" [some recR1])).trace[1]? =
      some (Call.delete "example_com" "r1") ∧
    (doUpdate cfgHome (envOk "198.51.100.9" [some recR1])).trace[2]? =
      some (Call.create "example_com"
        { Hostname := "home.example.com", Type_ := "A", Value := "198.51.100.9",
          TTL := some 3600 }) ∧
    (1 < 2 ∧ "example_com" = cfgHome.zoneID ∧
      ∃ ip recs r, (envOk "198.51.100.9" [some recR1]).GetIPv4 = .ok ip ∧
        (envOk "198.51.100.9" [some recR1]).GetDNSRecords cfgHome.zoneID = .ok recs ∧
        IsFirstARecord cfgHome.recordHostname recs r ∧ "example_com" = r.DNSZoneID ∧
        "r1" = r.ID ∧ (r.DNSZoneID = cfgHome.zoneID → "example_com" = "example_com")) :=
  ⟨by decide, by decide,
    doUpdate_delete_before_create cfgHome (envOk "198.51.100.9" [some recR1]) 1 2
      "example_com" "r1" "example_com"
      { Hostname := "home.example.com", Type_ := "A", Value := "198.51.100.9",
        TTL := some 3600 }
      (by decide) (by decide)⟩

/-! ## C4: the TTL of the replaced record is carried over -/

/-- C4: for every create call of a run, with payload `p`: IP discovery and the list call
have succeeded, the scan has come to its end, and if the scan selected a record with TTL
`t` (zero included) then `p` has TTL `t`; if the scan selected a record without TTL, or
selected no record, then `p` has no TTL. -/
theorem doUpdate_create_ttl (cfg : Cfg) (env : Env) (zc : String) (p : DNSRecordCreate)
    (hc : Call.create zc p ∈ (doUpdate cfg env).trace) :
    ∃ ip recs, env.GetIPv4 = .ok ip ∧ env.GetDNSRecords cfg.zoneID = .ok recs ∧
      findExistingARecord cfg.recordHostname recs ≠ .nilDereference ∧
      (∀ r t, findExistingARecord cfg.recordHostname recs = .done (some r) →
        r.TTL = some t → p.TTL = some t) ∧
      (∀ r, findExistingARecord cfg.recordHostname recs = .done (some r) →
        r.TTL = none → p.TTL = none) ∧
      (findExistingARecord cfg.recordHostname recs = .done none → p.TTL = none) := by
  cases path_exists cfg env with
  | ipError e hip => rw [doUpdate_ip_error hip] at hc; simp at hc
  | listError ip e hip hl => rw [doUpdate_list_error hip hl] at hc; simp at hc
  | nilEntry ip recs hip hl hf => rw [doUpdate_nil_entry hip hl hf] at hc; simp at hc
  | noChange ip recs r hip hl hf hv => rw [doUpdate_no_change hip hl hf hv] at hc; simp at hc
  | deleteError ip recs r e hip hl hf hv hdel =>
    rw [doUpdate_delete_error hip hl hf hv hdel] at hc; simp at hc
  | replace ip recs r hip hl hf hv hdel =>
    rw [doUpdate_replace hip hl hf hv hdel, createNewRecord_trace] at hc
    simp at hc
    obtain ⟨-, rfl⟩ := hc
    refine ⟨ip, recs, hip, hl, by rw [hf]; simp, ?_, ?_, ?_⟩
    · intro r2 t h2 ht
      rw [hf] at h2
      cases h2
      simpa using ht
    · intro r2 h2 ht
      rw [hf] at h2
      cases h2
      simpa using ht
    · intro h2
      rw [hf] at h2
      cases h2
  | fresh ip recs hip hl hf =>
    rw [doUpdate_fresh hip hl hf, createNewRecord_trace] at hc
    simp at hc
    obtain ⟨-, rfl⟩ := hc
    refine ⟨ip, recs, hip, hl, by rw [hf]; simp, ?_, ?_, ?_⟩
    · intro r2 t h2
      rw [hf] at h2
      cases h2
    · intro r2 h2
      rw [hf] at h2
      cases h2
    · intro _
      rfl

theorem doUpdate_create_ttl_witness :
    Call.create "example_com"
        { Hostname := "home.example.com", Type_ := "A", Value := "198.51.100.9",
          TTL := some 0 } ∈
      (doUpdate cfgHome (envOk "198.51.100.9" [some recZeroTTL])).trace ∧
    ∃ ip recs, (envOk "198.51.100.9" [some recZeroTTL]).GetIPv4 = .ok ip ∧
      (envOk "198.51.100.9" [some recZeroTTL]).GetDNSRecords cfgHome.zoneID = .ok recs ∧
      findExistingARecord cfgHome.recordHostname recs ≠ .nilDereference ∧
      (∀ r t, findExistingARecord cfgHome.recordHostname recs = .done (some r) →
        r.TTL = some t → (some 0 : Option Nat) = some t) ∧
      (∀ r, findExistingARecord cfgHome.recordHostname recs = .done (some r) →
        r.TTL = none → (some 0 : Option Nat) = none) ∧
      (findExistingARecord cfgHome.recordHostname recs = .done none →
        (some 0 : Option Nat) = none) :=
  ⟨by decide,
    doUpdate_create_ttl cfgHome (envOk "198.51.100.9" [some recZeroTTL]) "example_com"
      { Hostname := "home.example.com", Type_ := "A", Value := "198.51.100.9",
        TTL := some 0 }
      (by decide)⟩

/-! ## C5: what is deleted -/

/-- C5: a run issues at most one delete call, and every delete call of a run carries the
`DNSZoneID` and the `ID` of the first record, in list order, whose hostname is the record
hostname and whose type is `A`: the record deleted is an A record, it is at the record
hostname, and no A record at the record hostname precedes it in the list. -/
theorem doUpdate_delete_targets_first_A_record (cfg : Cfg) (env : Env) :
    ((doUpdate cfg env).trace.filter Call.isDelete).length ≤ 1 ∧
    ∀ z id, Call.delete z id ∈ (doUpdate cfg env).trace →
      ∃ ip recs r, env.GetIPv4 = .ok ip ∧ env.GetDNSRecords cfg.zoneID = .ok recs ∧
        IsFirstARecord cfg.recordHostname recs r ∧ z = r.DNSZoneID ∧ id = r.ID := by
  cases path_exists cfg env with
  | ipError e hip => rw [doUpdate_ip_error hip]; simp
  | listError ip e hip hl => rw [doUpdate_list_error hip hl]; simp [Call.isDelete]
  | nilEntry ip recs hip hl hf => rw [doUpdate_nil_entry hip hl hf]; simp [Call.isDelete]
  | noChange ip recs r hip hl hf hv =>
    rw [doUpdate_no_change hip hl hf hv]; simp [Call.isDelete]
  | deleteError ip recs r e hip hl hf hv hdel =>
    rw [doUpdate_delete_error hip hl hf hv hdel]
    have hfirst := findExistingARecord_done_some cfg.recordHostname recs r hf
    refine ⟨by simp [List.filter, Call.isDelete], ?_⟩
    intro z id hmem
    simp at hmem
    exact ⟨ip, recs, r, hip, hl, hfirst, hmem.1, hmem.2⟩
  | replace ip recs r hip hl hf hv hdel =>
    rw [doUpdate_replace hip hl hf hv hdel, createNewRecord_trace]
    have hfirst := findExistingARecord_done_some cfg.recordHostname recs r hf
    refine ⟨by simp [List.filter, Call.isDelete], ?_⟩
    intro z id hmem
    simp at hmem
    exact ⟨ip, recs, r, hip, hl, hfirst, hmem.1, hmem.2⟩
  | fresh ip recs hip hl hf =>
    rw [doUpdate_fresh hip hl hf, createNewRecord_trace]
    simp [List.filter, Call.isDelete]

theorem doUpdate_delete_targets_first_A_record_witness :
    Call.delete "example_com" "r1" ∈
      (doUpdate cfgHome (envOk "198.51.100.9" recsMixed)).trace ∧
    ((doUpdate cfgHome (envOk "198.51.100.9" recsMixed)).trace.filter
      Call.isDelete).length ≤ 1 ∧
    ∃ ip recs r, (envOk "198.51.100.9" recsMixed).GetIPv4 = .ok ip ∧
      (envOk "198.51.100.9" recsMixed).GetDNSRecords cfgHome.zoneID = .ok recs ∧
      IsFirstARecord cfgHome.recordHostname recs r ∧ "example_com" = r.DNSZoneID ∧
      "r1" = r.ID :=
  ⟨by decide,
    (doUpdate_delete_targets_first_A_record cfgHome (envOk "198.51.100.9" recsMixed)).1,
    (doUpdate_delete_targets_first_A_record cfgHome (envOk "198.51.100.9" recsMixed)).2
      "example_com" "r1" (by decide)⟩

/-! ## C6: fail-stop -/

/-- C6: `doUpdate` is fail-stop. If IP discovery fails, it returns an error and issues no
call at all; if a list call of the run fails, it returns an error and issues no delete and
no create call; if a delete call of the run fails, it returns an error and issues no create
call. -/
theorem doUpdate_fail_stop (cfg : Cfg) (env : Env) :
    (∀ e, env.GetIPv4 = .error e →
      (∃ err, (doUpdate cfg env).outcome = .returned (some err)) ∧
      (doUpdate cfg env).trace = []) ∧
    (∀ z e, Call.list z ∈ (doUpdate cfg env).trace → env.GetDNSRecords z = .error e →
      (∃ err, (doUpdate cfg env).outcome = .returned (some err)) ∧
      ∀ c ∈ (doUpdate cfg env).trace, c.isDelete = false ∧ c.isCreate = false) ∧
    (∀ z id e, Call.delete z id ∈ (doUpdate cfg env).trace →
      env.DeleteDNSRecord z id = some e →
      (∃ err, (doUpdate cfg env).outcome = .returned (some err)) ∧
      ∀ c ∈ (doUpdate cfg env).trace, c.isCreate = false) := by
  cases path_exists cfg env with
  | ipError e hip => rw [doUpdate_ip_error hip]; simp
  | listError ip e hip hl =>
    rw [doUpdate_list_error hip hl]; simp [hip, Call.isDelete, Call.isCreate]
  | nilEntry ip recs hip hl hf =>
    rw [doUpdate_nil_entry hip hl hf]
    refine ⟨?_, ?_, ?_⟩
    · intro e h; rw [hip] at h; cases h
    · intro z e hmem h
      simp at hmem
      subst hmem
      rw [hl] at h; cases h
    · intro z id e hmem
      simp at hmem
  | noChange ip recs r hip hl hf hv =>
    rw [doUpdate_no_change hip hl hf hv]
    refine ⟨?_, ?_, ?_⟩
    · intro e h; rw [hip] at h; cases h
    · intro z e hmem h
      simp at hmem
      subst hmem
      rw [hl] at h; cases h
    · intro z id e hmem
      simp at hmem
  | deleteError ip recs r e hip hl hf hv hdel =>
    rw [doUpdate_delete_error hip hl hf hv hdel]
    refine ⟨?_, ?_, ?_⟩
    · intro e h; rw [hip] at h; cases h
    · intro z e hmem h
      simp at hmem
      subst hmem
      rw [hl] at h; cases h
    · intro z id e2 _ _
      simp [Call.isCreate]
  | replace ip recs r hip hl hf hv hdel =>
    rw [doUpdate_replace hip hl hf hv hdel, createNewRecord_trace]
    refine ⟨?_, ?_, ?_⟩
    · intro e h; rw [hip] at h; cases h
    · intro z e hmem h
      simp at hmem
      subst hmem
      rw [hl] at h; cases h
    · intro z id e hmem h
      simp at hmem
      obtain ⟨rfl, rfl⟩ := hmem
      rw [hdel] at h; cases h
  | fresh ip recs hip hl hf =>
    rw [doUpdate_fresh hip hl hf, createNewRecord_trace]
    refine ⟨?_, ?_, ?_⟩
    · intro e h; rw [hip] at h; cases h
    · intro z e hmem h
      simp at hmem
      subst hmem
      rw [hl] at h; cases h
    · intro z id e hmem
      simp at hmem

theorem doUpdate_fail_stop_witness :
    ((envIPFails (.leaf "timeout")).GetIPv4 = .error (.leaf "timeout") ∧
      (∃ err, (doUpdate cfgHome (envIPFails (.leaf "timeout"))).outcome =
        .returned (some err)) ∧
      (doUpdate cfgHome (envIPFails (.leaf "timeout"))).trace = []) ∧
    (Call.list "example_com" ∈
        (doUpdate cfgHome (envListFails "203.0.113.5" (.leaf "401"))).trace ∧
      (envListFails "203.0.113.5" (.leaf "401")).GetDNSRecords "example_com" =
        .error (.leaf "401") ∧
      (∃ err, (doUpdate cfgHome (envListFails "203.0.113.5" (.leaf "401"))).outcome =
        .returned (some err)) ∧
      ∀ c ∈ (doUpdate cfgHome (envListFails "203.0.113.5" (.leaf "401"))).trace,
        c.isDelete = false ∧ c.isCreate = false) ∧
    (Call.delete "example_com" "r1" ∈
        (doUpdate cfgHome (envDeleteFails "198.51.100.9" [some recR1] (.leaf "500"))).trace ∧
      (envDeleteFails "198.51.100.9" [some recR1] (.leaf "500")).DeleteDNSRecord
        "example_com" "r1" = some (.leaf "500") ∧
      (∃ err,
        (doUpdate cfgHome (envDeleteFails "198.51.100.9" [some recR1] (.leaf "500"))).outcome =
          .returned (some err)) ∧
      ∀ c ∈ (doUpdate cfgHome (envDeleteFails "198.51.100.9" [some recR1] (.leaf "500"))).trace,
        c.isCreate = false) :=
  ⟨⟨rfl, (doUpdate_fail_stop cfgHome (envIPFails (.leaf "timeout"))).1 _ rfl⟩,
    ⟨by decide, rfl,
      (doUpdate_fail_stop cfgHome (envListFails "203.0.113.5" (.leaf "401"))).2.1
        "example_com" (.leaf "401") (by decide) rfl⟩,
    ⟨by decide, rfl,
      (doUpdate_fail_stop cfgHome (envDeleteFails "198.51.100.9" [some recR1] (.leaf "500"))).2.2
        "example_com" "r1" (.leaf "500") (by decide) rfl⟩⟩

/-! ## C7: exit codes -/

/-- After a successful parse, the exit code is 0 when `doUpdate` returned `nil` or left
through the no-change exit, 1 when it returned an error, and 2 when it panicked. -/
theorem main_exit_code_after_parse (cfg : Cfg) (env : Env) :
    ((doUpdate (deriveFields cfg) env).outcome = .returned none →
      (main (.ok cfg) env).exitCode = 0) ∧
    ((doUpdate (deriveFields cfg) env).outcome = .exited 0 →
      (main (.ok cfg) env).exitCode = 0) ∧
    (∀ err, (doUpdate (deriveFields cfg) env).outcome = .returned (some err) →
      (main (.ok cfg) env).exitCode = 1) ∧
    ((doUpdate (deriveFields cfg) env).outcome = .panicked →
      (main (.ok cfg) env).exitCode = 2) := by
  refine ⟨?_, ?_, ?_, ?_⟩
  · intro h; simp [main, h]
  · intro h; simp [main, h]
  · intro err h; simp [main, h]
  · intro h; simp [main, h]

/-- C7 fails on the configuration error: when configuration parsing reports a missing
required field, `main` prints the error and returns, so the process ends with exit code 0,
without any log line and without any call. -/
theorem main_config_error_exit_code :
    main (.error (.leaf "field Zone is required")) (envOk "203.0.113.5" []) =
      { stdout := ["field Zone is required"], logs := [], trace := [], exitCode := 0 } := by
  rfl

/-! ## C8: the derived fields -/

theorem replaceAllFrom_dot (l : List Char) :
    replaceAllFrom ['.'] ['_'] 0 l = l.map (fun c => if c = '.' then '_' else c) := by
  induction l with
  | nil => rfl
  | cons c cs ih =>
    unfold replaceAllFrom
    by_cases h : c = '.'
    · subst h
      simp [List.isPrefixOf, ih]
    · have h2 : ¬ '.' = c := fun h3 => h h3.symm
      simp [List.isPrefixOf, ih, h, h2]

theorem stringsReplaceAll_dot (z : String) :
    stringsReplaceAll z "." "_" = dotsToUnderscores z := by
  unfold stringsReplaceAll dotsToUnderscores
  have h1 : ¬ ("." : String) = "_" := by decide
  have h2 : ¬ ("." : String).data = [] := by decide
  rw [if_neg h1, if_neg h2]
  exact congrArg String.mk (replaceAllFrom_dot z.data)

theorem utf8ByteSize_go_map_dot (l : List Char) :
    String.utf8ByteSize.go (l.map (fun c => if c = '.' then '_' else c)) =
      String.utf8ByteSize.go l := by
  induction l with
  | nil => rfl
  | cons c cs ih =>
    simp only [List.map, String.utf8ByteSize.go, ih]
    by_cases h : c = '.'
    · subst h
      rfl
    · simp [h]

/-- C8: the derived zone identifier is the zone with every `.` replaced by `_`: it contains
no `.` and has the length of the zone (in characters and in bytes); the derived record
hostname is the record, a `.`, and the zone. -/
theorem deriveFields_spec (cfg : Cfg) :
    (deriveFields cfg).zoneID = dotsToUnderscores cfg.Zone ∧
    '.' ∉ (deriveFields cfg).zoneID.data ∧
    (deriveFields cfg).zoneID.length = cfg.Zone.length ∧
    (deriveFields cfg).zoneID.utf8ByteSize = cfg.Zone.utf8ByteSize ∧
    (deriveFields cfg).recordHostname = cfg.Record ++ "." ++ cfg.Zone := by
  have hz : (deriveFields cfg).zoneID = dotsToUnderscores cfg.Zone :=
    stringsReplaceAll_dot cfg.Zone
  refine ⟨hz, ?_, ?_, ?_, rfl⟩
  · rw [hz]
    simp only [dotsToUnderscores, List.mem_map, not_exists, not_and]
    intro c _ hc
    by_cases h : c = '.'
    · rw [if_pos h] at hc
      exact absurd hc (by decide)
    · rw [if_neg h] at hc
      exact h hc
  · rw [hz]
    show (cfg.Zone.data.map fun c => if c = '.' then '_' else c).length =
      cfg.Zone.data.length
    exact List.length_map _ _
  · rw [hz]
    exact utf8ByteSize_go_map_dot cfg.Zone.data

/-! ## C9: wrapping of errors -/

/-- Failures of IP discovery, of the delete call and of the create call are returned
wrapped: the returned error has a non-empty prefix followed by the text of the cause, and
the cause is what `errors.Unwrap` gives back. -/
theorem doUpdate_wraps_ip_delete_create (cfg : Cfg) (env : Env) :
    (∀ e, env.GetIPv4 = .error e →
      ∃ pre, pre ≠ "" ∧ (doUpdate cfg env).outcome = .returned (some (.wrap pre e)) ∧
        (GoError.wrap pre e).Error = pre ++ e.Error ∧
        (GoError.wrap pre e).Unwrap = some e) ∧
    (∀ z id e, Call.delete z id ∈ (doUpdate cfg env).trace →
      env.DeleteDNSRecord z id = some e →
      ∃ pre, pre ≠ "" ∧ (doUpdate cfg env).outcome = .returned (some (.wrap pre e)) ∧
        (GoError.wrap pre e).Error = pre ++ e.Error ∧
        (GoError.wrap pre e).Unwrap = some e) ∧
    (∀ z p e, Call.create z p ∈ (doUpdate cfg env).trace →
      env.CreateDNSRecord z p = some e →
      ∃ pre, pre ≠ "" ∧ (doUpdate cfg env).outcome = .returned (some (.wrap pre e)) ∧
        (GoError.wrap pre e).Error = pre ++ e.Error ∧
        (GoError.wrap pre e).Unwrap = some e) := by
  cases path_exists cfg env with
  | ipError e hip =>
    rw [doUpdate_ip_error hip]
    refine ⟨?_, ?_, ?_⟩
    · intro e2 h
      rw [hip] at h
      cases h
      exact ⟨_, by decide, rfl, rfl, rfl⟩
    · intro z id e2 hmem; simp at hmem
    · intro z p e2 hmem; simp at hmem
  | listError ip e hip hl =>
    rw [doUpdate_list_error hip hl]
    refine ⟨?_, ?_, ?_⟩
    · intro e2 h; rw [hip] at h; cases h
    · intro z id e2 hmem; simp at hmem
    · intro z p e2 hmem; simp at hmem
  | nilEntry ip recs hip hl hf =>
    rw [doUpdate_nil_entry hip hl hf]
    refine ⟨?_, ?_, ?_⟩
    · intro e2 h; rw [hip] at h; cases h
    · intro z id e2 hmem; simp at hmem
    · intro z p e2 hmem; simp at hmem
  | noChange ip recs r hip hl hf hv =>
    rw [doUpdate_no_change hip hl hf hv]
    refine ⟨?_, ?_, ?_⟩
    · intro e2 h; rw [hip] at h; cases h
    · intro z id e2 hmem; simp at hmem
    · intro z p e2 hmem; simp at hmem
  | deleteError ip recs r e hip hl hf hv hdel =>
    rw [doUpdate_delete_error hip hl hf hv hdel]
    refine ⟨?_, ?_, ?_⟩
    · intro e2 h; rw [hip] at h; cases h
    · intro z id e2 hmem h
      simp at hmem
      obtain ⟨rfl, rfl⟩ := hmem
      rw [hdel] at h
      cases h
      exact ⟨_, by decide, rfl, rfl, rfl⟩
    · intro z p e2 hmem; simp at hmem
  | replace ip recs r hip hl hf hv hdel =>
    rw [doUpdate_replace hip hl hf hv hdel, createNewRecord_trace, createNewRecord_outcome]
    refine ⟨?_, ?_, ?_⟩
    · intro e2 h; rw [hip] at h; cases h
    · intro z id e2 hmem h
      simp at hmem
      obtain ⟨rfl, rfl⟩ := hmem
      rw [hdel] at h; cases h
    · intro z p e2 hmem h
      simp at hmem
      obtain ⟨rfl, rfl⟩ := hmem
      simp only [Option.some_bind, Option.none_bind, h]
      exact ⟨_, by decide, rfl, rfl, rfl⟩
  | fresh ip recs hip hl hf =>
    rw [doUpdate_fresh hip hl hf, createNewRecord_trace, createNewRecord_outcome]
    refine ⟨?_, ?_, ?_⟩
    · intro e2 h; rw [hip] at h; cases h
    · intro z id e2 hmem; simp at hmem
    · intro z p e2 hmem h
      simp at hmem
      obtain ⟨rfl, rfl⟩ := hmem
      simp only [Option.some_bind, Option.none_bind, h]
      exact ⟨_, by decide, rfl, rfl, rfl⟩

/-- C9 fails on the list call: when the list call fails with `e`, `doUpdate` returns `e`
itself. Its text is the text of `e` with nothing in front, and it wraps no cause. -/
theorem doUpdate_list_error_returned_unwrapped :
    (doUpdate cfgHome (envListFails "203.0.113.5" (.leaf "401 Unauthorized"))).outcome =
      .returned (some (.leaf "401 Unauthorized")) ∧
    (GoError.leaf "401 Unauthorized").Error = "401 Unauthorized" ∧
    (GoError.leaf "401 Unauthorized").Unwrap = none := by
  refine ⟨by decide, rfl, rfl⟩

/-! ## C10: when the run ends in the no-change exit -/

/-- A run panics exactly when IP discovery and the list call succeed and the scan meets a
`nil` entry; such a run has issued the list call and nothing else, and no log line. -/
theorem doUpdate_panicked_iff (cfg : Cfg) (env : Env) :
    ((doUpdate cfg env).outcome = .panicked ↔
      ∃ ip recs, env.GetIPv4 = .ok ip ∧ env.GetDNSRecords cfg.zoneID = .ok recs ∧
        ScanMeetsNil cfg.recordHostname recs) ∧
    ((doUpdate cfg env).outcome = .panicked →
      (doUpdate cfg env).trace = [Call.list cfg.zoneID] ∧ (doUpdate cfg env).logs = []) := by
  have hscan : ∀ {ip recs}, env.GetIPv4 = .ok ip → env.GetDNSRecords cfg.zoneID = .ok recs →
      ∀ s, findExistingARecord cfg.recordHostname recs = s → s ≠ .nilDereference →
      ¬ ∃ ip recs, env.GetIPv4 = .ok ip ∧ env.GetDNSRecords cfg.zoneID = .ok recs ∧
        ScanMeetsNil cfg.recordHostname recs := by
    intro ip recs hip hl s hs hne
    rintro ⟨ip2, recs2, -, hl2, hm⟩
    rw [hl] at hl2
    cases hl2
    rw [← findExistingARecord_nilDereference_iff, hs] at hm
    exact hne hm
  cases path_exists cfg env with
  | ipError e hip =>
    rw [doUpdate_ip_error hip]
    refine ⟨⟨fun h => by simp at h, ?_⟩, fun h => by simp at h⟩
    rintro ⟨ip, recs, h, -⟩
    rw [hip] at h
    cases h
  | listError ip e hip hl =>
    rw [doUpdate_list_error hip hl]
    refine ⟨⟨fun h => by simp at h, ?_⟩, fun h => by simp at h⟩
    rintro ⟨ip2, recs, -, h, -⟩
    rw [hl] at h
    cases h
  | nilEntry ip recs hip hl hf =>
    rw [doUpdate_nil_entry hip hl hf]
    exact ⟨⟨fun _ => ⟨ip, recs, hip, hl,
      (findExistingARecord_nilDereference_iff _ _).mp hf⟩, fun _ => rfl⟩, fun _ => ⟨rfl, rfl⟩⟩
  | noChange ip recs r hip hl hf hv =>
    rw [doUpdate_no_change hip hl hf hv]
    exact ⟨⟨fun h => by simp at h, fun h => absurd h (hscan hip hl _ hf (by simp))⟩,
      fun h => by simp at h⟩
  | deleteError ip recs r e hip hl hf hv hdel =>
    rw [doUpdate_delete_error hip hl hf hv hdel]
    exact ⟨⟨fun h => by simp at h, fun h => absurd h (hscan hip hl _ hf (by simp))⟩,
      fun h => by simp at h⟩
  | replace ip recs r hip hl hf hv hdel =>
    have hout := createNewRecord_outcome cfg env ip (some r)
      [Call.list cfg.zoneID, Call.delete r.DNSZoneID r.ID]
      ["removing DNS record " ++ r.Hostname ++ ", ip " ++ r.Value]
    rw [doUpdate_replace hip hl hf hv hdel]
    have hne : (createNewRecord cfg env ip (some r)
        [Call.list cfg.zoneID, Call.delete r.DNSZoneID r.ID]
        ["removing DNS record " ++ r.Hostname ++ ", ip " ++ r.Value]).outcome ≠
        .panicked := by
      rw [hout]; split <;> simp
    exact ⟨⟨fun h => absurd h hne, fun h => absurd h (hscan hip hl _ hf (by simp))⟩,
      fun h => absurd h hne⟩
  | fresh ip recs hip hl hf =>
    have hout := createNewRecord_outcome cfg env ip none [Call.list cfg.zoneID] []
    rw [doUpdate_fresh hip hl hf]
    have hne : (createNewRecord cfg env ip none [Call.list cfg.zoneID] []).outcome ≠
        .panicked := by
      rw [hout]; split <;> simp
    exact ⟨⟨fun h => absurd h hne, fun h => absurd h (hscan hip hl _ hf (by simp))⟩,
      fun h => absurd h hne⟩

/-- C10, as stated, fails on a payload with a `nil` entry before the A record at the record
hostname. IP discovery and the list call succeed and the first A record at the record
hostname exists and has the discovered value, yet the run does not end in the no-change
exit: it panics. With a stale value, the run is not the no-change exit, no delete call has
failed (none was issued), and yet no create call is issued. -/
theorem doUpdate_nil_entry_breaks_no_change_iff :
    ((envOk "203.0.113.5" recsNilFirst).GetIPv4 = .ok "203.0.113.5" ∧
      (envOk "203.0.113.5" recsNilFirst).GetDNSRecords cfgHome.zoneID = .ok recsNilFirst ∧
      (∃ r, IsFirstARecord cfgHome.recordHostname recsNilFirst r ∧
        r.Value = "203.0.113.5") ∧
      doUpdate cfgHome (envOk "203.0.113.5" recsNilFirst) =
        { trace := [Call.list "example_com"], logs := [], outcome := .panicked }) ∧
    ((envOk "198.51.100.9" recsNilFirst).GetIPv4 = .ok "198.51.100.9" ∧
      (envOk "198.51.100.9" recsNilFirst).GetDNSRecords cfgHome.zoneID = .ok recsNilFirst ∧
      doUpdate cfgHome (envOk "198.51.100.9" recsNilFirst) =
        { trace := [Call.list "example_com"], logs := [], outcome := .panicked }) := by
  refine ⟨⟨rfl, rfl, ⟨recR1, ⟨[none], [], rfl, by decide, by decide, ?_⟩, by decide⟩,
    by decide⟩, rfl, rfl, by decide⟩
  intro x hx
  simp at hx

/-- C10, amended: when IP discovery and the list call succeed and the scan meets no `nil`
entry (the list holds no `nil` entry that no A record at the record hostname precedes), the
run ends in the no-change exit (`os.Exit(0)`) if and only if the first A record at the
record hostname, in list order, exists and has the discovered IPv4 as its value; a run that
ends so has issued no delete call, no create call and no log line; and a run that does not
end so issues a create call (on the derived zone identifier) exactly when no delete call of
the run failed. -/
theorem doUpdate_no_change_iff (cfg : Cfg) (env : Env) (ip : String)
    (recs : List (Option DNSRecord))
    (hip : env.GetIPv4 = .ok ip) (hl : env.GetDNSRecords cfg.zoneID = .ok recs)
    (hnil : ¬ ScanMeetsNil cfg.recordHostname recs) :
    ((doUpdate cfg env).outcome = .exited 0 ↔
      ∃ r, IsFirstARecord cfg.recordHostname recs r ∧ r.Value = ip) ∧
    ((doUpdate cfg env).outcome = .exited 0 →
      (∀ c ∈ (doUpdate cfg env).trace, c.isDelete = false ∧ c.isCreate = false) ∧
      (doUpdate cfg env).logs = []) ∧
    ((doUpdate cfg env).outcome ≠ .exited 0 →
      ((∃ p, Call.create cfg.zoneID p ∈ (doUpdate cfg env).trace) ↔
        ∀ z id, Call.delete z id ∈ (doUpdate cfg env).trace →
          env.DeleteDNSRecord z id = none)) := by
  cases hf : findExistingARecord cfg.recordHostname recs with
  | nilDereference =>
    exact absurd ((findExistingARecord_nilDereference_iff _ _).mp hf) hnil
  | done existing =>
    cases existing with
    | none =>
      have hout := createNewRecord_outcome cfg env ip none [Call.list cfg.zoneID] []
      rw [doUpdate_fresh hip hl hf, createNewRecord_trace]
      have hne : (createNewRecord cfg env ip none [Call.list cfg.zoneID] []).outcome ≠
          .exited 0 := by
        rw [hout]; split <;> simp
      refine ⟨⟨fun h => absurd h hne, ?_⟩, fun h => absurd h hne, ?_⟩
      · rintro ⟨r, hr, -⟩
        rcases findExistingARecord_of_first _ _ _ hr with h2 | h2
        · rw [hf] at h2; cases h2
        · rw [hf] at h2; cases h2
      · intro _
        constructor
        · intro _ z id hmem
          simp at hmem
        · intro _
          exact ⟨_, List.mem_append_right _ (List.mem_singleton.mpr rfl)⟩
    | some r =>
      have hfirst := findExistingARecord_done_some cfg.recordHostname recs r hf
      by_cases hv : r.Value = ip
      · rw [doUpdate_no_change hip hl hf hv]
        refine ⟨⟨fun _ => ⟨r, hfirst, hv⟩, fun _ => rfl⟩, ?_, fun h => absurd rfl h⟩
        intro _
        simp [Call.isDelete, Call.isCreate]
      · have hcond : ¬ ∃ r2, IsFirstARecord cfg.recordHostname recs r2 ∧ r2.Value = ip := by
          rintro ⟨r2, h2, hv2⟩
          rw [first_eq_of_done_some hf h2] at hv2
          exact hv hv2
        cases hdel : env.DeleteDNSRecord r.DNSZoneID r.ID with
        | some e =>
          rw [doUpdate_delete_error hip hl hf hv hdel]
          refine ⟨⟨fun h => by simp at h, fun h => absurd h hcond⟩,
            fun h => by simp at h, ?_⟩
          intro _
          constructor
          · rintro ⟨p, hmem⟩
            simp at hmem
          · intro h
            have := h r.DNSZoneID r.ID (by simp)
            rw [hdel] at this
            cases this
        | none =>
          have hout := createNewRecord_outcome cfg env ip (some r)
            [Call.list cfg.zoneID, Call.delete r.DNSZoneID r.ID]
            ["removing DNS record " ++ r.Hostname ++ ", ip " ++ r.Value]
          rw [doUpdate_replace hip hl hf hv hdel, createNewRecord_trace]
          have hne : (createNewRecord cfg env ip (some r)
              [Call.list cfg.zoneID, Call.delete r.DNSZoneID r.ID]
              ["removing DNS record " ++ r.Hostname ++ ", ip " ++ r.Value]).outcome ≠
              .exited 0 := by
            rw [hout]; split <;> simp
          refine ⟨⟨fun h => absurd h hne, fun h => absurd h hcond⟩,
            fun h => absurd h hne, ?_⟩
          intro _
          constructor
          · intro _ z id hmem
            simp at hmem
            obtain ⟨rfl, rfl⟩ := hmem
            exact hdel
          · intro _
            exact ⟨_, List.mem_append_right _ (List.mem_singleton.mpr rfl)⟩

theorem doUpdate_no_change_iff_witness :
    ¬ ScanMeetsNil cfgHome.recordHostname recsMixed ∧
    (doUpdate cfgHome (envOk "203.0.113.5" recsMixed)).outcome = .exited 0 ∧
    ((doUpdate cfgHome (envOk "203.0.113.5" recsMixed)).outcome = .exited 0 ↔
      ∃ r, IsFirstARecord cfgHome.recordHostname recsMixed r ∧ r.Value = "203.0.113.5") ∧
    ((doUpdate cfgHome (envOk "203.0.113.5" recsMixed)).outcome = .exited 0 →
      (∀ c ∈ (doUpdate cfgHome (envOk "203.0.113.5" recsMixed)).trace,
        c.isDelete = false ∧ c.isCreate = false) ∧
      (doUpdate cfgHome (envOk "203.0.113.5" recsMixed)).logs = []) ∧
    ((doUpdate cfgHome (envOk "203.0.113.5" recsMixed)).outcome ≠ .exited 0 →
      ((∃ p, Call.create cfgHome.zoneID p ∈
          (doUpdate cfgHome (envOk "203.0.113.5" recsMixed)).trace) ↔
        ∀ z id, Call.delete z id ∈ (doUpdate cfgHome (envOk "203.0.113.5" recsMixed)).trace →
          (envOk "203.0.113.5" recsMixed).DeleteDNSRecord z id = none)) :=
  have hnil : ¬ ScanMeetsNil cfgHome.recordHostname recsMixed := fun h =>
    absurd ((findExistingARecord_nilDereference_iff _ _).mpr h) (by decide)
  ⟨hnil, by decide,
    doUpdate_no_change_iff cfgHome (envOk "203.0.113.5" recsMixed) "203.0.113.5" recsMixed
      rfl rfl hnil⟩

end NetlifyDDNS
